import Mathlib

/-
  Verification development for the P2P-FileTransfer-Go repository.

  Shallow embedding of the core of the system:
  * the wire data model (pkg/protocol/types.go),
  * the peer orchestrator's handlers and retry loop (peer/peer.go),
  * the TCP transport's registry bookkeeping, reader loop, Send and
    Shutdown (pkg/transport/tcp.go).

  File systems are modelled as association lists from paths (component
  lists) to byte contents; filepath.Join is modelled with Go's Clean
  semantics on component lists; goroutine interleavings relevant to the
  registry are modelled as explicit event traces.
-/

namespace P2P

/-! ## Wire data model (pkg/protocol/types.go) -/

/-- Message type tags, as in pkg/protocol/types.go. -/
def MessageTypeStream : Nat := 0x1

def MessageTypeNormal : Nat := 0x2

def MessageTypeFileRequest : Nat := 0x3

def MessageTypeFileResponse : Nat := 0x4

def MessageTypeChunkRequest : Nat := 0x5

def MessageTypeChunkData : Nat := 0x6

/-- `FileRequest` payload. File names are modelled as lists of path
components (the Go string split on the separator). -/
structure FileRequest where
  fileName : List String
deriving DecidableEq

/-- `FileResponse` payload, with the reserved chunking fields
(`Checksum`, `NumChunks`) that no handler consumes. -/
structure FileResponse where
  name : List String
  size : Int
  data : List Nat
  checksum : String
  numChunks : Int
deriving DecidableEq

/-- The dynamic `Payload interface\x7b\x7d` field: the variants registered
with the gob codec (`&FileRequest\x7b\x7d`, `&FileResponse\x7b\x7d`, `[]byte\x7b\x7d`
in pkg/protocol/codec.go). -/
inductive Payload where
  | fileRequest (req : FileRequest)
  | fileResponse (resp : FileResponse)
  | rawBytes (b : List Nat)
deriving DecidableEq

/-- The message envelope (Go fields `Type`, `From`, `FromAddr`, `Payload`). -/
structure Message where
  msgType : Nat
  fromId : String
  fromAddr : String
  payload : Payload
deriving DecidableEq

/-! ## Paths and the filesystem collaborator -/

/-- Go's `filepath.Clean` on a relative path, at the level of path
components: drop empty and `.` components; `..` pops the previous
component when one exists and is not itself a leading `..`. -/
def cleanComps (comps : List String) : List String :=
  comps.foldl
    (fun acc c =>
      if c = "" ∨ c = "." then acc
      else if c = ".." then
        if acc ≠ [] ∧ acc.getLast? ≠ some ".." then acc.dropLast
        else acc ++ [".."]
      else acc ++ [c])
    []

/-- `filepath.Join(dir, name)`: concatenate and clean. -/
def joinPath (dir name : List String) : List String :=
  cleanComps (dir ++ name)

/-- A filesystem: an association list from full paths to byte contents. -/
def FS := List (List String × List Nat)

/-- `os.Open` + `Stat`: the file's bytes at a path, `none` when not
openable. -/
def fsLookup : FS → List String → Option (List Nat)
  | [], _ => none
  | (p, d) :: rest, q => if p = q then some d else fsLookup rest q

/-- `os.WriteFile`: create or truncate-and-overwrite the file at the path. -/
def fsInsert : FS → List String → List Nat → FS
  | [], q, v => [(q, v)]
  | (p, d) :: rest, q, v =>
      if p = q then (q, v) :: rest else (p, d) :: fsInsert rest q v

theorem fsLookup_fsInsert_self (fs : FS) (q : List String) (v : List Nat) :
    fsLookup (fsInsert fs q v) q = some v := by
  induction fs with
  | nil => simp [fsInsert, fsLookup]
  | cons hd tl ih =>
      obtain ⟨p, d⟩ := hd
      by_cases hpq : p = q
      · simp [fsInsert, hpq, fsLookup]
      · simp [fsInsert, hpq, fsLookup, ih]

/-! ## Peer orchestrator (peer/peer.go) -/

/-- The read-only configuration of a peer: its id, listen address and
the two directory roots (peer/peer.go `Peer` struct; the filesystem is
passed separately as explicit state). -/
structure Peer where
  id : String
  listenAddr : String
  sharedDir : List String
  receivedDir : List String
deriving DecidableEq

/-- A Go runtime panic (failed type assertion `msg.Payload.(*T)`). -/
inductive PanicE where
  | typeAssertionPanic
deriving DecidableEq

/-- Linux caps a single `read(2)` on a regular file at
`MAX_RW_COUNT = 0x7ffff000` bytes, and `os.File.Read` issues one
`read(2)` without looping, so one `file.Read` call returns at most this
many bytes. -/
def maxSingleReadBytes : Nat := 0x7ffff000

/-- The single `file.Read(content)` in `handleFileRequest`
(peer/peer.go): the buffer is `make([]byte, fileInfo.Size())`, so it has
the file's length and is zero-initialized; the one read fills at most
`maxSingleReadBytes` bytes and its returned byte count is discarded, so
past that cap the buffer keeps its zero bytes. -/
def readOnce (content : List Nat) : List Nat :=
  content.take maxSingleReadBytes
    ++ List.replicate (content.length - maxSingleReadBytes) 0

theorem readOnce_eq_of_le (content : List Nat)
    (h : content.length ≤ maxSingleReadBytes) :
    readOnce content = content := by
  unfold readOnce
  rw [List.take_of_length_le h, Nat.sub_eq_zero_of_le h]
  simp

theorem readOnce_replicate_big :
    readOnce (List.replicate (maxSingleReadBytes + 1) 1)
      = List.replicate maxSingleReadBytes 1 ++ [0] := by
  unfold readOnce
  rw [List.take_replicate, List.length_replicate]
  have h1 : min maxSingleReadBytes (maxSingleReadBytes + 1)
      = maxSingleReadBytes := by omega
  have h2 : maxSingleReadBytes + 1 - maxSingleReadBytes = 1 := by omega
  rw [h1, h2]
  rfl

theorem readOnce_replicate_big_ne :
    readOnce (List.replicate (maxSingleReadBytes + 1) 1)
      ≠ List.replicate (maxSingleReadBytes + 1) 1 := by
  rw [readOnce_replicate_big, List.replicate_succ']
  intro h
  have h2 := List.append_cancel_left h
  simp at h2

/-- `handleFileRequest` (peer/peer.go): assert the payload is a
`*FileRequest` (panicking otherwise), open `filepath.Join(sharedDir,
fileName)`; on failure log and return with no reply; on success
allocate a buffer of `fileInfo.Size()` bytes, fill it with a single
`file.Read` whose byte count is discarded (`readOnce`), and send a
`FileResponse` back to `msg.FromAddr`. Returns the outbound
(destination address, message), if any. -/
def handleFileRequest (p : Peer) (fs : FS) (msg : Message) :
    Except PanicE (Option (String × Message)) :=
  match msg.payload with
  | .fileRequest req =>
      let filePath := joinPath p.sharedDir req.fileName
      match fsLookup fs filePath with
      | none => .ok none
      | some content =>
          .ok (some (msg.fromAddr,
            { msgType := MessageTypeFileResponse
              fromId := p.id
              fromAddr := p.listenAddr
              payload := .fileResponse
                { name := req.fileName
                  size := (content.length : Int)
                  data := readOnce content
                  checksum := ""
                  numChunks := 0 } }))
  | _ => .error .typeAssertionPanic

/-- `handleFileResponse` (peer/peer.go): assert the payload is a
`*FileResponse` (panicking otherwise) and write its data verbatim to
`filepath.Join(receivedDir, name)`. -/
def handleFileResponse (p : Peer) (fs : FS) (msg : Message) :
    Except PanicE FS :=
  match msg.payload with
  | .fileResponse resp =>
      .ok (fsInsert fs (joinPath p.receivedDir resp.name) resp.data)
  | _ => .error .typeAssertionPanic

/-- One iteration of `handleMessages`: switch on `msg.Type`, route to the
matching handler, ignore unknown tags. Returns the updated filesystem
and the outbound sends. -/
def dispatchStep (p : Peer) (fs : FS) (msg : Message) :
    Except PanicE (FS × List (String × Message)) :=
  if msg.msgType = MessageTypeFileRequest then
    match handleFileRequest p fs msg with
    | .error e => .error e
    | .ok none => .ok (fs, [])
    | .ok (some sm) => .ok (fs, [sm])
  else if msg.msgType = MessageTypeFileResponse then
    match handleFileResponse p fs msg with
    | .error e => .error e
    | .ok fs2 => .ok (fs2, [])
  else
    .ok (fs, [])

/-- The `handleMessages` dispatch loop over a finite inbound sequence;
a panic in a handler terminates the loop. -/
def handleMessages (p : Peer) (fs : FS) :
    List Message → Except PanicE (FS × List (String × Message))
  | [] => .ok (fs, [])
  | m :: rest =>
      match dispatchStep p fs m with
      | .error e => .error e
      | .ok (fs2, out) =>
          match handleMessages p fs2 rest with
          | .error e => .error e
          | .ok (fs3, out2) => .ok (fs3, out ++ out2)

/-- `RequestFile` (peer/peer.go) retry loop: the outcome of each
`transport.Send` attempt is given by the oracle `send` (attempt index →
success). `ok` is whether the call returns nil; `attempts` how many
sends were issued; `sleeps` how many 2-second `time.Sleep(retryInterval)`
pauses were taken (one after every failed attempt). -/
structure RetryOutcome where
  ok : Bool
  attempts : Nat
  sleeps : Nat
deriving DecidableEq

/-- `maxRetries` in `RequestFile`. -/
def maxRetries : Nat := 5

/-- `retryInterval` in `RequestFile`, in seconds. -/
def retryIntervalSeconds : Nat := 2

/-- The body of `RequestFile`'s retry `for` loop: `fuel` iterations
remain, `a` attempts have been made (and failed, each followed by one
sleep) so far. -/
def requestFileGo (send : Nat → Bool) : Nat → Nat → RetryOutcome
  | 0, a => { ok := false, attempts := a, sleeps := a }
  | fuel + 1, a =>
      if send a then { ok := true, attempts := a + 1, sleeps := a }
      else requestFileGo send fuel (a + 1)

/-- `RequestFile`: up to `maxRetries` send attempts. -/
def requestFile (send : Nat → Bool) : RetryOutcome :=
  requestFileGo send maxRetries 0

/-! ## Connection registry and transport (pkg/transport/tcp.go) -/

/-- The `peers map[string]net.Conn` registry: an association list from
address strings to connection identifiers. -/
def Registry := List (String × Nat)

/-- `t.peers[k] = c` under the mutex: replace an existing entry for `k`
or add one. -/
def regInsert : Registry → String → Nat → Registry
  | [], k, c => [(k, c)]
  | (p, d) :: rest, k, c =>
      if p = k then (k, c) :: rest else (p, d) :: regInsert rest k c

/-- `delete(t.peers, k)` under the mutex. -/
def regRemove : Registry → String → Registry
  | [], _ => []
  | (p, d) :: rest, k =>
      if p = k then regRemove rest k else (p, d) :: regRemove rest k

/-- `conn, exists := t.peers[k]` under the mutex. -/
def regLookup : Registry → String → Option Nat
  | [], _ => none
  | (p, d) :: rest, k => if p = k then some d else regLookup rest k

/-- The registry-touching events of the transport's concurrent
activities. `remote c` below gives connection `c`'s observed
`conn.RemoteAddr().String()`. -/
inductive TEvent where
  | accept (c : Nat)
  | dialOk (addr : String) (c : Nat)
  | readerExit (c : Nat)
deriving DecidableEq

/-- Effect of one event on the registry, mirroring the code paths:
`accept c` — the accept loop hands `c` to `managePeerConnection`, which
registers it under its remote address; `dialOk addr c` — `ConnectToPeer`
stores `peers[addr] = c` and spawns `managePeerConnection`, which also
registers `c` under its remote address; `readerExit c` — the deferred
cleanup in `managePeerConnection` deletes the entry keyed by `c`'s
remote address. -/
def tstep (remote : Nat → String) (r : Registry) : TEvent → Registry
  | .accept c => regInsert r (remote c) c
  | .dialOk addr c => regInsert (regInsert r addr c) (remote c) c
  | .readerExit c => regRemove r (remote c)

/-- Run a trace of registry events. -/
def trun (remote : Nat → String) (r : Registry) (evs : List TEvent) :
    Registry :=
  evs.foldl (tstep remote) r

/-- The addresses currently registered. -/
def regKeys (r : Registry) : List String := r.map (fun e => e.1)

/-- Errors `Send` can return. -/
inductive SendError where
  | dialFailed
  | nilConnection
  | writeFailed
deriving DecidableEq

/-- `Send` (pkg/transport/tcp.go): look up `addr` in the registry; if
present, gob-encode onto that connection (`writeOk`). Otherwise dial via
`ConnectToPeer` (`dialOk`); on dial failure return an error; else sleep
100ms and re-read `t.peers[addr]` (`regAfterWait` — the entry
`ConnectToPeer` just stored, unless a concurrent reader-exit removed
it); a nil connection is an error, else encode onto it. -/
def sendModel (reg : Registry) (addr : String) (dialOk : Bool)
    (regAfterWait : Option Nat) (writeOk : Nat → Bool) :
    Except SendError Unit :=
  match regLookup reg addr with
  | some c => if writeOk c then .ok () else .error .writeFailed
  | none =>
      if dialOk then
        match regAfterWait with
        | some c => if writeOk c then .ok () else .error .writeFailed
        | none => .error .nilConnection
      else .error .dialFailed

/-- The reader loop of `managePeerConnection`: decode results arrive in
order; a decode error (EOF or otherwise) ends the loop; each decoded
message is enqueued with `FromAddr` overwritten by the connection's
remote address. Returns the enqueued messages. -/
def readerLoop (remoteAddr : String) :
    List (Except Unit Message) → List Message
  | [] => []
  | .error _ :: _ => []
  | .ok m :: rest =>
      { m with fromAddr := remoteAddr } :: readerLoop remoteAddr rest

/-! ## Shutdown (pkg/transport/tcp.go) -/

/-- A connection endpoint with its closed flag. -/
structure ConnSt where
  connId : Nat
  closed : Bool
deriving DecidableEq

/-- The transport state `Shutdown` acts on. -/
structure TransportState where
  listenerOpen : Bool
  msgChClosed : Bool
  conns : List (String × ConnSt)
deriving DecidableEq

/-- `Shutdown`: close the listener, close every registered connection,
then `close(t.messageCh)`. -/
def shutdownT (t : TransportState) : TransportState :=
  { listenerOpen := false
    msgChClosed := true
    conns := t.conns.map (fun e => (e.1, { e.2 with closed := true })) }

/-- Writing a message on a connection: fails once the socket is closed. -/
def connSend (c : ConnSt) : Except Unit Unit :=
  if c.closed then .error () else .ok ()

/-- The request message as constructed by `RequestFile` and delivered by
the transport (which stamps `FromAddr` with the requester's observed
remote address). -/
def mkRequestMsg (fromId fromAddr : String) (f : List String) : Message :=
  { msgType := MessageTypeFileRequest
    fromId := fromId
    fromAddr := fromAddr
    payload := .fileRequest ⟨f⟩ }

/-! ## Registry lemmas -/

theorem mem_regKeys_regInsert (r : Registry) (k : String) (c : Nat)
    (a : String) :
    a ∈ regKeys (regInsert r k c) ↔ a ∈ regKeys r ∨ a = k := by
  induction r with
  | nil => simp [regInsert, regKeys]
  | cons hd tl ih =>
      obtain ⟨p, d⟩ := hd
      by_cases hp : p = k
      · subst hp
        simp [regInsert, regKeys]
        tauto
      · simp [regInsert, hp, regKeys] at ih ⊢
        rw [ih]
        tauto

theorem regKeys_nodup_regInsert (r : Registry) (k : String) (c : Nat)
    (h : (regKeys r).Nodup) : (regKeys (regInsert r k c)).Nodup := by
  induction r with
  | nil => simp [regInsert, regKeys]
  | cons hd tl ih =>
      obtain ⟨p, d⟩ := hd
      rw [show regKeys ((p, d) :: tl) = p :: regKeys tl from rfl,
        List.nodup_cons] at h
      by_cases hp : p = k
      · subst hp
        rw [show regInsert ((p, d) :: tl) p c = (p, c) :: tl from by
          simp [regInsert]]
        rw [show regKeys ((p, c) :: tl) = p :: regKeys tl from rfl,
          List.nodup_cons]
        exact h
      · rw [show regInsert ((p, d) :: tl) k c
            = (p, d) :: regInsert tl k c from by simp [regInsert, hp]]
        rw [show regKeys ((p, d) :: regInsert tl k c)
            = p :: regKeys (regInsert tl k c) from rfl, List.nodup_cons]
        refine ⟨?_, ih h.2⟩
        intro hmem
        rcases (mem_regKeys_regInsert tl k c p).mp hmem with hin | heq
        · exact h.1 hin
        · exact hp heq

theorem regRemove_sublist (r : Registry) (k : String) :
    List.Sublist (regRemove r k) r := by
  induction r with
  | nil => simp [regRemove]
  | cons hd tl ih =>
      obtain ⟨p, d⟩ := hd
      by_cases hp : p = k
      · simp only [regRemove, hp, if_true]
        exact ih.cons _
      · simp only [regRemove, hp, if_false]
        exact ih.cons₂ _

theorem regKeys_nodup_regRemove (r : Registry) (k : String)
    (h : (regKeys r).Nodup) : (regKeys (regRemove r k)).Nodup :=
  List.Nodup.sublist (List.Sublist.map _ (regRemove_sublist r k)) h

theorem regLookup_regRemove_self (r : Registry) (k : String) :
    regLookup (regRemove r k) k = none := by
  induction r with
  | nil => simp [regRemove, regLookup]
  | cons hd tl ih =>
      obtain ⟨p, d⟩ := hd
      by_cases hp : p = k
      · simp [regRemove, hp, ih]
      · simp [regRemove, regLookup, hp, ih]

theorem regLookup_regRemove_ne (r : Registry) (k a : String)
    (h : a ≠ k) : regLookup (regRemove r k) a = regLookup r a := by
  induction r with
  | nil => simp [regRemove]
  | cons hd tl ih =>
      obtain ⟨p, d⟩ := hd
      by_cases hp : p = k
      · subst hp
        have hne : p ≠ a := fun he => h he.symm
        simp [regRemove, regLookup, hne, ih]
      · by_cases hpa : p = a
        · subst hpa
          simp [regRemove, regLookup, hp]
        · simp [regRemove, regLookup, hp, hpa, ih]

theorem regLookup_regInsert_self (r : Registry) (k : String) (c : Nat) :
    regLookup (regInsert r k c) k = some c := by
  induction r with
  | nil => simp [regInsert, regLookup]
  | cons hd tl ih =>
      obtain ⟨p, d⟩ := hd
      by_cases hp : p = k
      · simp [regInsert, hp, regLookup]
      · simp [regInsert, regLookup, hp, ih]

theorem regLookup_regInsert_ne (r : Registry) (k a : String) (c : Nat)
    (h : a ≠ k) : regLookup (regInsert r k c) a = regLookup r a := by
  have hka : k ≠ a := fun he => h he.symm
  induction r with
  | nil => simp [regInsert, regLookup, hka]
  | cons hd tl ih =>
      obtain ⟨p, d⟩ := hd
      by_cases hp : p = k
      · subst hp
        simp [regInsert, regLookup, hka]
      · by_cases hpa : p = a
        · subst hpa
          simp [regInsert, regLookup, hp]
        · simp [regInsert, regLookup, hp, hpa, ih]

theorem regKeys_nodup_tstep (remote : Nat → String) (r : Registry)
    (e : TEvent) (h : (regKeys r).Nodup) :
    (regKeys (tstep remote r e)).Nodup := by
  cases e with
  | accept c => exact regKeys_nodup_regInsert r (remote c) c h
  | dialOk addr c =>
      exact regKeys_nodup_regInsert _ (remote c) c
        (regKeys_nodup_regInsert r addr c h)
  | readerExit c => exact regKeys_nodup_regRemove r (remote c) h

theorem regKeys_nodup_trun (remote : Nat → String) (evs : List TEvent) :
    ∀ r : Registry, (regKeys r).Nodup →
      (regKeys (trun remote r evs)).Nodup := by
  induction evs with
  | nil => intro r h; exact h
  | cons e tl ih =>
      intro r h
      exact ih (tstep remote r e) (regKeys_nodup_tstep remote r e h)

/-! ## Retry-loop lemmas -/

theorem requestFileGo_all_fail (send : Nat → Bool) :
    ∀ (fuel a : Nat), (∀ i, i < a + fuel → send i = false) →
      requestFileGo send fuel a
        = { ok := false, attempts := a + fuel, sleeps := a + fuel } := by
  intro fuel
  induction fuel with
  | zero => intro a h; simp [requestFileGo]
  | succ n ih =>
      intro a h
      have hsa : send a = false := h a (by omega)
      have hrec := ih (a + 1) (fun i hi => h i (by omega))
      have harith : a + 1 + n = a + (n + 1) := by omega
      simp [requestFileGo, hsa, hrec, harith]

theorem requestFileGo_first_success (send : Nat → Bool) :
    ∀ (fuel a k : Nat), a ≤ k → k < a + fuel → send k = true →
      (∀ i, a ≤ i → i < k → send i = false) →
      requestFileGo send fuel a
        = { ok := true, attempts := k + 1, sleeps := k } := by
  intro fuel
  induction fuel with
  | zero => intro a k h1 h2; omega
  | succ n ih =>
      intro a k h1 h2 hk hf
      by_cases hak : a = k
      · subst hak
        simp [requestFileGo, hk]
      · have hlt : a < k := lt_of_le_of_ne h1 hak
        have hsa : send a = false := hf a le_rfl hlt
        have hrec := ih (a + 1) k (by omega) (by omega) hk
          (fun i hle hilt => hf i (by omega) hilt)
        simp [requestFileGo, hsa, hrec]

/-! ## Claim theorems -/

/-- Supporting lemma for the round-trip analysis: for a file whose
length does not exceed the single-read cap, the single `file.Read`
returns the whole content, and the request/response pair of handlers
does reproduce the shared bytes under the requester's received
directory. Above the cap this fails — see the claim C1 theorem. -/
theorem bounded_file_roundtrip_eq (A B : Peer) (fsA fsB : FS)
    (f : List String) (content : List Nat) (reqFrom reqAddr : String)
    (h : fsLookup fsA (joinPath A.sharedDir f) = some content)
    (hlen : content.length ≤ maxSingleReadBytes) :
    ∃ resp : Message,
      handleFileRequest A fsA (mkRequestMsg reqFrom reqAddr f)
        = .ok (some (reqAddr, resp)) ∧
      ∀ (stamped : String) (fsB2 : FS),
        handleFileResponse B fsB { resp with fromAddr := stamped }
          = .ok fsB2 →
        fsLookup fsB2 (joinPath B.receivedDir f) = some content := by
  have hro : readOnce content = content := readOnce_eq_of_le content hlen
  refine ⟨{ msgType := MessageTypeFileResponse
            fromId := A.id
            fromAddr := A.listenAddr
            payload := .fileResponse
              { name := f
                size := (content.length : Int)
                data := content
                checksum := ""
                numChunks := 0 } }, ?_, ?_⟩
  · simp [handleFileRequest, mkRequestMsg, h, hro]
  · intro stamped fsB2 heq
    simp [handleFileResponse] at heq
    rw [← heq]
    exact fsLookup_fsInsert_self fsB (joinPath B.receivedDir f) content

/-- Concrete check of the bounded round trip: the five bytes of "hello"
survive both handlers. -/
theorem bounded_file_roundtrip_check :
    ∃ resp : Message,
      handleFileRequest
          ⟨"peer1", "127.0.0.1:3000", ["shared1"], ["received1"]⟩
          [(["shared1", "greet.txt"], [104, 101, 108, 108, 111])]
          (mkRequestMsg "peer2" "127.0.0.1:51000" ["greet.txt"])
        = .ok (some ("127.0.0.1:51000", resp)) ∧
      ∀ (stamped : String) (fsB2 : FS),
        handleFileResponse
            ⟨"peer2", "127.0.0.1:3001", ["shared2"], ["received2"]⟩
            [] { resp with fromAddr := stamped }
          = .ok fsB2 →
        fsLookup fsB2 (joinPath ["received2"] ["greet.txt"])
          = some [104, 101, 108, 108, 111] :=
  bounded_file_roundtrip_eq
    ⟨"peer1", "127.0.0.1:3000", ["shared1"], ["received1"]⟩
    ⟨"peer2", "127.0.0.1:3001", ["shared2"], ["received2"]⟩
    [(["shared1", "greet.txt"], [104, 101, 108, 108, 111])] []
    ["greet.txt"] [104, 101, 108, 108, 111] "peer2" "127.0.0.1:51000"
    (by decide) (by decide)

/-- Claim C1: the claimed round-trip equality fails for files of any
size, and the code, not the claim, is at fault. `handleFileRequest`
allocates a zero-filled buffer of the file's size but fills it with a
single `file.Read` whose byte count is discarded; one read returns at
most `maxSingleReadBytes` bytes, so for the shared file `big.bin` of
`maxSingleReadBytes + 1` bytes, all `0x01`, the response carries the
first `maxSingleReadBytes` bytes followed by a stray zero byte, which
differs from the file, and `handleFileResponse` stores exactly those
wrong bytes under the requester's received directory. -/
theorem single_read_truncates_roundtrip :
    handleFileRequest
        ⟨"peer1", "127.0.0.1:3000", ["shared1"], ["received1"]⟩
        [(["shared1", "big.bin"],
          List.replicate (maxSingleReadBytes + 1) 1)]
        (mkRequestMsg "peer2" "127.0.0.1:51000" ["big.bin"])
      = .ok (some ("127.0.0.1:51000",
          { msgType := MessageTypeFileResponse, fromId := "peer1",
            fromAddr := "127.0.0.1:3000",
            payload := .fileResponse
              { name := ["big.bin"],
                size := ((maxSingleReadBytes + 1 : Nat) : Int),
                data := List.replicate maxSingleReadBytes 1 ++ [0],
                checksum := "", numChunks := 0 } })) ∧
    List.replicate maxSingleReadBytes 1 ++ [0]
      ≠ List.replicate (maxSingleReadBytes + 1) 1 ∧
    handleFileResponse
        ⟨"peer2", "127.0.0.1:3001", ["shared2"], ["received2"]⟩ []
        { msgType := MessageTypeFileResponse, fromId := "peer1",
          fromAddr := "127.0.0.1:3000",
          payload := .fileResponse
            { name := ["big.bin"],
              size := ((maxSingleReadBytes + 1 : Nat) : Int),
              data := List.replicate maxSingleReadBytes 1 ++ [0],
              checksum := "", numChunks := 0 } }
      = .ok [(["received2", "big.bin"],
              List.replicate maxSingleReadBytes 1 ++ [0])] ∧
    fsLookup [(["received2", "big.bin"],
               List.replicate maxSingleReadBytes 1 ++ [0])]
        (joinPath ["received2"] ["big.bin"])
      ≠ some (List.replicate (maxSingleReadBytes + 1) 1) := by
  refine ⟨?_, readOnce_replicate_big_ne ∘ (readOnce_replicate_big ▸ ·),
    ?_, ?_⟩
  · have hlook : fsLookup
        [(["shared1", "big.bin"],
          List.replicate (maxSingleReadBytes + 1) 1)]
        (joinPath ["shared1"] ["big.bin"])
        = some (List.replicate (maxSingleReadBytes + 1) 1) := by
      simp [fsLookup, joinPath, cleanComps]
    simp [handleFileRequest, mkRequestMsg, hlook, readOnce_replicate_big,
      List.length_replicate]
  · rfl
  · intro h
    rw [show joinPath ["received2"] ["big.bin"]
        = ["received2", "big.bin"] from rfl] at h
    simp only [fsLookup, if_pos rfl] at h
    have h2 := Option.some.inj h
    exact (readOnce_replicate_big ▸ readOnce_replicate_big_ne) h2

/-- Claim C2: `RequestFile` issues at most 5 send attempts with one
2-second sleep after each failed attempt; it returns success as soon as
an attempt succeeds (after `k` failures: `k+1` attempts, `k` sleeps),
and when all 5 attempts fail it returns a terminal error after exactly
5 attempts with 5 interleaved 2-second pauses, rather than looping
further. -/
theorem requestFile_retry_policy (send : Nat → Bool) :
    ((∀ i, i < maxRetries → send i = false) →
       requestFile send = { ok := false, attempts := 5, sleeps := 5 }) ∧
    (∀ k, k < maxRetries → send k = true →
       (∀ i, i < k → send i = false) →
       requestFile send = { ok := true, attempts := k + 1, sleeps := k }) := by
  constructor
  · intro h
    have := requestFileGo_all_fail send maxRetries 0
      (fun i hi => h i (by simpa using hi))
    simpa [requestFile] using this
  · intro k hk hsk hf
    have := requestFileGo_first_success send maxRetries 0 k
      (Nat.zero_le k) (by simpa using hk) hsk
      (fun i _ hik => hf i hik)
    simpa [requestFile] using this

/-- Claim C2 witness: with every send failing, `RequestFile` stops with
an error after exactly 5 attempts and 5 pauses; with the third attempt
succeeding, it returns success after 3 attempts and 2 pauses. -/
theorem requestFile_retry_policy_witness :
    requestFile (fun _ => false)
      = { ok := false, attempts := 5, sleeps := 5 } ∧
    requestFile (fun i => decide (i = 2))
      = { ok := true, attempts := 3, sleeps := 2 } :=
  ⟨(requestFile_retry_policy (fun _ => false)).1 (fun i _ => rfl),
   (requestFile_retry_policy (fun i => decide (i = 2))).2 2 (by decide)
     (by decide) (fun i hi => by simp; omega)⟩

/-- Claim C3: an inbound `FileRequest` whose file name does not resolve
to an openable file under the responder's shared directory is dropped
silently: `handleFileRequest` sends no reply, the dispatch step leaves
the responder's filesystem unchanged with no outbound message (so no
write can occur under the requester's received directory), and the
dispatch loop goes on to process the remaining messages instead of
crashing. -/
theorem missing_file_silent_drop (A : Peer) (fsA : FS) (f : List String)
    (reqFrom reqAddr : String) (rest : List Message)
    (h : fsLookup fsA (joinPath A.sharedDir f) = none) :
    handleFileRequest A fsA (mkRequestMsg reqFrom reqAddr f) = .ok none ∧
    dispatchStep A fsA (mkRequestMsg reqFrom reqAddr f) = .ok (fsA, []) ∧
    handleMessages A fsA (mkRequestMsg reqFrom reqAddr f :: rest)
      = handleMessages A fsA rest := by
  have h1 : handleFileRequest A fsA (mkRequestMsg reqFrom reqAddr f)
      = .ok none := by
    simp [handleFileRequest, mkRequestMsg, h]
  have h2 : dispatchStep A fsA (mkRequestMsg reqFrom reqAddr f)
      = .ok (fsA, []) := by
    simp [dispatchStep, mkRequestMsg, handleFileRequest, h]
  refine ⟨h1, h2, ?_⟩
  rw [handleMessages, h2]
  cases hrest : handleMessages A fsA rest with
  | error e => simp [hrest]
  | ok out => simp [hrest]

/-- Claim C3 witness: a request for a file missing from a concrete
shared directory produces no reply, no state change, and the loop
continues with the rest of the queue. -/
theorem missing_file_silent_drop_witness :
    handleFileRequest ⟨"peer1", "127.0.0.1:3000", ["shared1"], ["received1"]⟩
        [(["shared1", "a.txt"], [1])]
        (mkRequestMsg "peer2" "127.0.0.1:51001" ["missing.txt"])
      = .ok none ∧
    dispatchStep ⟨"peer1", "127.0.0.1:3000", ["shared1"], ["received1"]⟩
        [(["shared1", "a.txt"], [1])]
        (mkRequestMsg "peer2" "127.0.0.1:51001" ["missing.txt"])
      = .ok ([(["shared1", "a.txt"], [1])], []) ∧
    handleMessages ⟨"peer1", "127.0.0.1:3000", ["shared1"], ["received1"]⟩
        [(["shared1", "a.txt"], [1])]
        [mkRequestMsg "peer2" "127.0.0.1:51001" ["missing.txt"],
         mkRequestMsg "peer2" "127.0.0.1:51001" ["a.txt"]]
      = handleMessages ⟨"peer1", "127.0.0.1:3000", ["shared1"], ["received1"]⟩
          [(["shared1", "a.txt"], [1])]
          [mkRequestMsg "peer2" "127.0.0.1:51001" ["a.txt"]] :=
  missing_file_silent_drop
    ⟨"peer1", "127.0.0.1:3000", ["shared1"], ["received1"]⟩
    [(["shared1", "a.txt"], [1])] ["missing.txt"] "peer2"
    "127.0.0.1:51001"
    [mkRequestMsg "peer2" "127.0.0.1:51001" ["a.txt"]] (by decide)

/-- Claim C4 counterexample: an entry can outlive its connection's
reader. `ConnectToPeer("localhost:3000")` registers connection 0 under
the dialed string "localhost:3000", while the spawned reader registers
and — on exit — deregisters it under its observed remote address
"127.0.0.1:3000". After the reader for connection 0 has terminated, the
registry still maps "localhost:3000" to connection 0, so the claim that
every entry for a connection is removed when that connection's read
loop terminates is false. -/
theorem registry_entry_outlives_reader :
    regLookup
      (trun (fun _ => "127.0.0.1:3000") []
        [TEvent.dialOk "localhost:3000" 0, TEvent.readerExit 0])
      "localhost:3000" = some 0 := by decide

/-- Claim C4 (amended): the registry holds at most one entry per
address at any time; a reader's exit removes the entry keyed by its
connection's observed remote address; but an entry created by
`ConnectToPeer` under a dialed address string that differs from the
connection's remote address string is not removed by that reader's
exit — it survives (until the transport itself is discarded). -/
theorem registry_bookkeeping (remote : Nat → String) :
    (∀ evs : List TEvent, (regKeys (trun remote [] evs)).Nodup) ∧
    (∀ (r : Registry) (c : Nat),
        regLookup (tstep remote r (.readerExit c)) (remote c) = none) ∧
    (∀ (r : Registry) (addr : String) (c : Nat), addr ≠ remote c →
        regLookup (trun remote r [.dialOk addr c, .readerExit c]) addr
          = some c) := by
  refine ⟨?_, ?_, ?_⟩
  · intro evs
    exact regKeys_nodup_trun remote evs [] (by simp [regKeys])
  · intro r c
    exact regLookup_regRemove_self r (remote c)
  · intro r addr c hne
    show regLookup
        (regRemove (regInsert (regInsert r addr c) (remote c) c)
          (remote c)) addr = some c
    rw [regLookup_regRemove_ne _ _ _ hne,
      regLookup_regInsert_ne _ _ _ _ hne]
    exact regLookup_regInsert_self r addr c

/-- Claim C4 witness: the amended statement applied to a concrete dial
whose target string differs from the observed remote address. -/
theorem registry_bookkeeping_witness :
    regLookup
      (trun (fun _ => "10.0.0.2:4000") []
        [TEvent.dialOk "peerhost:4000" 7, TEvent.readerExit 7])
      "peerhost:4000" = some 7 :=
  (registry_bookkeeping (fun _ => "10.0.0.2:4000")).2.2 []
    "peerhost:4000" 7 (by decide)

/-- Claim C5: `Send` writes on the registered connection when one
exists for the address, otherwise dials and, after the fixed wait,
re-reads the registry and writes on the connection found there; it
returns an error exactly when the dial fails, or no connection is
registered for the address after the wait, or the encode/write on the
connection it uses fails. -/
theorem send_error_iff (reg : Registry) (addr : String) (dialOk : Bool)
    (regAfterWait : Option Nat) (writeOk : Nat → Bool) :
    (∃ e, sendModel reg addr dialOk regAfterWait writeOk = .error e) ↔
      ((regLookup reg addr = none ∧ dialOk = false) ∨
       (regLookup reg addr = none ∧ dialOk = true ∧ regAfterWait = none) ∨
       (∃ c, (regLookup reg addr = some c ∨
               (regLookup reg addr = none ∧ dialOk = true ∧
                regAfterWait = some c)) ∧
             writeOk c = false)) := by
  rcases hreg : regLookup reg addr with _ | c
  · cases dialOk with
    | false => simp [sendModel, hreg]
    | true =>
        rcases hw : regAfterWait with _ | c
        · simp [sendModel, hreg, hw]
        · rcases hwo : writeOk c with _ | _ <;>
            simp [sendModel, hreg, hw, hwo]
  · rcases hwo : writeOk c with _ | _ <;>
      simp [sendModel, hreg, hwo]

/-- Claim C6: the connection reader stamps every message it enqueues
with the connection's observed remote address: the enqueued form of a
decoded message overwrites whatever `FromAddr` the sender supplied, and
every message the reader delivers has `fromAddr` equal to the
connection's remote address. -/
theorem reader_stamps_fromAddr (remoteAddr : String) :
    (∀ (m : Message) (rest : List (Except Unit Message)),
        readerLoop remoteAddr (.ok m :: rest)
          = { m with fromAddr := remoteAddr }
              :: readerLoop remoteAddr rest) ∧
    (∀ (results : List (Except Unit Message)) (m : Message),
        m ∈ readerLoop remoteAddr results → m.fromAddr = remoteAddr) := by
  constructor
  · intro m rest
    rfl
  · intro results
    induction results with
    | nil =>
        intro m hm
        simp [readerLoop] at hm
    | cons hd tl ih =>
        cases hd with
        | error e =>
            intro m hm
            simp [readerLoop] at hm
        | ok m0 =>
            intro m hm
            rw [readerLoop, List.mem_cons] at hm
            rcases hm with hm | hm
            · subst hm
              rfl
            · exact ih m hm

/-- Claim C6 witness: a message arriving with a spoofed `FromAddr` is
delivered stamped with the connection's remote address. -/
theorem reader_stamps_fromAddr_witness :
    ({ msgType := 3, fromId := "p", fromAddr := "5.6.7.8:9",
       payload := Payload.rawBytes [] } : Message).fromAddr
      = "5.6.7.8:9" :=
  (reader_stamps_fromAddr "5.6.7.8:9").2
    [Except.ok { msgType := 3, fromId := "p", fromAddr := "spoofed",
                 payload := Payload.rawBytes [] }]
    { msgType := 3, fromId := "p", fromAddr := "5.6.7.8:9",
      payload := Payload.rawBytes [] }
    (by decide)

/-- Claim C7: `handleFileResponse` writes the response's data bytes
verbatim to the file named by the response under the received
directory, overwriting whatever was there (the lookup after the write
returns exactly the data, whatever `fs` held before), and the result is
completely independent of the response's checksum and chunking fields —
no verification is performed. -/
theorem handleFileResponse_writes_verbatim (B : Peer) (fs : FS)
    (name : List String) (size : Int) (data : List Nat) (ck : String)
    (nc : Int) (mFrom mAddr : String) :
    handleFileResponse B fs
        { msgType := MessageTypeFileResponse, fromId := mFrom,
          fromAddr := mAddr,
          payload := .fileResponse ⟨name, size, data, ck, nc⟩ }
      = .ok (fsInsert fs (joinPath B.receivedDir name) data) ∧
    fsLookup (fsInsert fs (joinPath B.receivedDir name) data)
        (joinPath B.receivedDir name) = some data ∧
    (∀ (ck2 : String) (nc2 : Int),
      handleFileResponse B fs
          { msgType := MessageTypeFileResponse, fromId := mFrom,
            fromAddr := mAddr,
            payload := .fileResponse ⟨name, size, data, ck2, nc2⟩ }
        = handleFileResponse B fs
            { msgType := MessageTypeFileResponse, fromId := mFrom,
              fromAddr := mAddr,
              payload := .fileResponse ⟨name, size, data, ck, nc⟩ }) :=
  ⟨rfl, fsLookup_fsInsert_self fs (joinPath B.receivedDir name) data,
   fun _ _ => rfl⟩

/-- Claim C8: `Shutdown` closes the listener and every registered
connection and closes the inbound message channel: afterwards the
channel is in its closed state and a write on any previously registered
connection fails. -/
theorem shutdown_closes_all (t : TransportState) :
    (shutdownT t).msgChClosed = true ∧
    (shutdownT t).listenerOpen = false ∧
    (∀ (a : String) (c : ConnSt), (a, c) ∈ (shutdownT t).conns →
        c.closed = true ∧ connSend c = .error ()) := by
  refine ⟨rfl, rfl, ?_⟩
  intro a c hmem
  rw [show (shutdownT t).conns
      = t.conns.map (fun e => (e.1, { e.2 with closed := true }))
      from rfl, List.mem_map] at hmem
  obtain ⟨e, _, he⟩ := hmem
  have hc : c = { e.2 with closed := true } := (Prod.mk.injEq _ _ _ _ ▸ he).2.symm
  subst hc
  exact ⟨rfl, rfl⟩

/-- Claim C8 witness: a transport with one live registered connection,
after `Shutdown`. -/
theorem shutdown_closes_all_witness :
    ({ connId := 0, closed := true } : ConnSt).closed = true ∧
    connSend { connId := 0, closed := true } = .error () :=
  (shutdown_closes_all
      { listenerOpen := true, msgChClosed := false,
        conns := [("127.0.0.1:60000", { connId := 0, closed := false })] }).2.2
    "127.0.0.1:60000" { connId := 0, closed := true } (by decide)

/-- Claim C9: the handlers' type assertions are unchecked: a message
whose `Type` tag is `FileRequest` (resp. `FileResponse`) but whose
payload is not a `FileRequest` (resp. `FileResponse`) value makes the
handler panic, and the panic terminates the whole dispatch loop — the
remaining messages are never processed. -/
theorem unchecked_assertion_panics (p : Peer) (fs : FS) (msg : Message)
    (rest : List Message) :
    (msg.msgType = MessageTypeFileRequest →
      (∀ req : FileRequest, msg.payload ≠ .fileRequest req) →
      handleMessages p fs (msg :: rest) = .error .typeAssertionPanic) ∧
    (msg.msgType = MessageTypeFileResponse →
      (∀ resp : FileResponse, msg.payload ≠ .fileResponse resp) →
      handleMessages p fs (msg :: rest) = .error .typeAssertionPanic) := by
  constructor
  · intro hty hpl
    have hreq : handleFileRequest p fs msg = .error .typeAssertionPanic := by
      cases hmp : msg.payload with
      | fileRequest req => exact absurd hmp (hpl req)
      | fileResponse r => simp [handleFileRequest, hmp]
      | rawBytes b => simp [handleFileRequest, hmp]
    rw [handleMessages]
    simp [dispatchStep, hty, hreq]
  · intro hty hpl
    have hresp : handleFileResponse p fs msg = .error .typeAssertionPanic := by
      cases hmp : msg.payload with
      | fileRequest _r => simp [handleFileResponse, hmp]
      | fileResponse r => exact absurd hmp (hpl r)
      | rawBytes b => simp [handleFileResponse, hmp]
    have hne : msg.msgType ≠ MessageTypeFileRequest := by
      rw [hty]
      decide
    rw [handleMessages]
    simp [dispatchStep, hty, hne, hresp, MessageTypeFileRequest,
      MessageTypeFileResponse]

/-- Claim C9 witness: a `FileRequest`-tagged message carrying a raw
byte payload panics the loop; the well-formed request queued behind it
is never handled. -/
theorem unchecked_assertion_panics_witness :
    handleMessages ⟨"peer1", "127.0.0.1:3000", ["shared1"], ["received1"]⟩
        [(["shared1", "a.txt"], [1])]
        [{ msgType := 3, fromId := "peer2", fromAddr := "127.0.0.1:51002",
           payload := Payload.rawBytes [1, 2] },
         mkRequestMsg "peer2" "127.0.0.1:51002" ["a.txt"]]
      = .error .typeAssertionPanic :=
  (unchecked_assertion_panics
      ⟨"peer1", "127.0.0.1:3000", ["shared1"], ["received1"]⟩
      [(["shared1", "a.txt"], [1])]
      { msgType := 3, fromId := "peer2", fromAddr := "127.0.0.1:51002",
        payload := Payload.rawBytes [1, 2] }
      [mkRequestMsg "peer2" "127.0.0.1:51002" ["a.txt"]]).1
    rfl (fun _req h => nomatch h)

/-- Claim C10: neither handler sanitizes the wire-supplied name: the
request handler opens exactly `filepath.Join(sharedDir, fileName)` and
the response handler writes exactly `filepath.Join(receivedDir, name)`,
and a name with a parent-directory component escapes the root: with
shared root `home/shared`, the request `../secret` reads `home/secret`
(outside the root, and served when such a file exists), and with
received root `home/received`, the response name `../evil` writes
`home/evil` (outside the root). -/
theorem no_path_sanitization :
    joinPath ["home", "shared"] ["..", "secret"] = ["home", "secret"] ∧
    (["home", "shared"].isPrefixOf
      (joinPath ["home", "shared"] ["..", "secret"])) = false ∧
    handleFileRequest ⟨"a", "addrA", ["home", "shared"], ["home", "received"]⟩
        [(["home", "secret"], [42])]
        (mkRequestMsg "b" "addrB" ["..", "secret"])
      = .ok (some ("addrB",
          { msgType := MessageTypeFileResponse, fromId := "a",
            fromAddr := "addrA",
            payload := .fileResponse ⟨["..", "secret"], 1, [42], "", 0⟩ })) ∧
    handleFileResponse ⟨"a", "addrA", ["home", "shared"], ["home", "received"]⟩
        []
        { msgType := MessageTypeFileResponse, fromId := "b",
          fromAddr := "addrB",
          payload := .fileResponse ⟨["..", "evil"], 1, [7], "", 0⟩ }
      = .ok [(["home", "evil"], [7])] ∧
    (["home", "received"].isPrefixOf ["home", "evil"]) = false :=
  ⟨rfl, rfl, rfl, rfl, rfl⟩

end P2P
